import Mathlib

/-!
InstallRootCaCertsGo: a shallow embedding of `main.go`.

The Go program reads an os-release file, identifies the distribution by a
substring test on the lower-cased contents and runs one of three installation
procedures.  Everything the program does is a call into the operating system, so
the embedding makes the operating system explicit:

* the file system is a map from locations to nodes (`FS`); a path names a location
  through `resolve`, the lexical part of path resolution (repeated slashes, "." and
  ".."), so that two spellings of one file are one cell.  Links are not modelled;
* the parts of the platform the program cannot influence (the Unicode lower-case
  table, whether a missing file can be created, how many bytes a device accepts,
  what a child process does) are the fields of `Sys`;
* a run produces a trace of `Event`s, in program order, and an `Outcome`.

Go strings are modelled by Lean strings, i.e. by the sequence of runes that
`strings.ToLower` iterates over; the patterns searched for are ASCII, for which
a byte-level and a rune-level substring test agree.
-/

namespace InstallRootCaCerts

/-! ## Data model -/

/-- The `Distro` enumeration of `main.go` (lines 151-158). -/
inductive Distro
  | Unknown
  | Alpine
  | Debian
  | Fedora
  deriving DecidableEq, Repr

/-- A path of the file system holds nothing, a directory, or a regular file with
its contents and whether the process may open it for reading and for writing. -/
inductive Node
  | absent
  | dir
  | file (content : String) (readable writable : Bool)
  deriving DecidableEq

/-- A location of the file system: the names on the way down from the root. -/
abbrev Loc := List String

/-- The file system: what each location holds. -/
abbrev FS := Loc → Node

/-- Split a rune sequence at the slashes. -/
def splitSlash : List Char → List (List Char)
  | [] => [[]]
  | c :: cs =>
    match splitSlash cs with
    | [] => [[c]]
    | seg :: rest => if c = '/' then [] :: seg :: rest else (c :: seg) :: rest

/-- Walk the names of a path down from the root: an empty name and "." stay where
they are, ".." goes up (the root is its own parent).  The names walked so far are
in `up`, innermost first. -/
def walk (up : List String) : List (List Char) → Loc
  | [] => up.reverse
  | seg :: rest =>
    if seg = [] ∨ seg = ['.'] then walk up rest
    else if seg = ['.', '.'] then walk up.tail rest
    else walk (String.mk seg :: up) rest

/-- Path resolution as the operating system does it for the paths of this program,
which are all absolute: "/a//b", "/a/./b" and "/a/c/../b" name the location of
"/a/b". -/
def resolve (path : String) : Loc := walk [] (splitSlash path.data)

/-- What the path holds. -/
def FS.node (fs : FS) (path : String) : Node := fs (resolve path)

/-- What a run does that is visible from outside, in program order. -/
inductive Event
  | println (msg : String)
  | append (path : String)
  | write (path : String)
  | exec (argv : List String)
  deriving DecidableEq

/-- The platform.  `unicodeLower` is Go's `unicode.ToLower` on runes outside
ASCII; `creatable p` says whether `os.WriteFile` may create the missing file `p`;
`writeQuota p` is the number of runes the device accepts in one write to `p`
before it reports an error (`none`: no limit); `run argv fs` is what the child
process `argv` does when started on `fs`: its `ProcessState` (`none` when it never
started, otherwise its exit code) and the file system it leaves. -/
structure Sys where
  unicodeLower : Char → Char
  creatable : String → Bool
  writeQuota : String → Option Nat
  run : List String → FS → Option Int × FS

/-- The mutable part of a run: the file system and the trace so far. -/
structure World where
  fs : FS
  trace : List Event

/-- How a piece of the program ends: it returns a value, it calls `os.Exit`, or it
panics. -/
inductive Outcome (α : Type)
  | ret (a : α) (w : World)
  | exit (code : Int) (w : World)
  | panicked (w : World)

/-- A piece of the program: a function of the world. -/
def Prog (α : Type) : Type := World → Outcome α

/-- Sequencing: `os.Exit` and a panic cut the rest of the program off. -/
def Prog.bind {α β : Type} (m : Prog α) (f : α → Prog β) : Prog β := fun w =>
  match m w with
  | .ret a w1 => f a w1
  | .exit c w1 => .exit c w1
  | .panicked w1 => .panicked w1

instance : Monad Prog where
  pure a := fun w => .ret a w
  bind := Prog.bind

/-- The world an outcome leaves. -/
def Outcome.world {α : Type} : Outcome α → World
  | .ret _ w => w
  | .exit _ w => w
  | .panicked w => w

/-- The exit status the operating system sees: 0 when `main` returns, the argument
of `os.Exit`, and 2 for a panic. -/
def Outcome.exitCode {α : Type} : Outcome α → Int
  | .ret _ _ => 0
  | .exit c _ => c
  | .panicked _ => 2

/-! ## OS shims -/

/-- The current file system. -/
def getFS : Prog FS := fun w => .ret w.fs w

/-- Record an event. -/
def emit (e : Event) : Prog Unit := fun w => .ret () ⟨w.fs, w.trace ++ [e]⟩

/-- The call `fmt.Println`. -/
def println (msg : String) : Prog Unit := emit (.println msg)

/-- The call `os.Exit`. -/
def osExit (code : Int) : Prog Unit := fun w => .exit code w

/-- Go `os.ReadFile`: the contents of a readable regular file. -/
def osReadFile (fs : FS) (filename : String) : Option String :=
  match fs.node filename with
  | .file c true _ => some c
  | _ => none

/-- Go `fileExists` (lines 96-99): `os.Stat` succeeds. -/
def fileExists (fs : FS) (filename : String) : Bool :=
  match fs.node filename with
  | .absent => false
  | _ => true

/-- Go `isStringEmpty` (lines 101-103). -/
def isStringEmpty (s : String) : Bool := s.length == 0

/-- Go `readFile` (lines 105-111): the contents, or the empty string on any error. -/
def readFile (fs : FS) (filename : String) : String :=
  match osReadFile fs filename with
  | none => ""
  | some c => c

/-- What a write of `data` to `path` stores, and whether it reports an error. -/
def deviceWrite (S : Sys) (path data : String) : String × Bool :=
  match S.writeQuota path with
  | none => (data, false)
  | some k => (String.mk (data.data.take k), decide (k < data.length))

/-- Replace what `path` holds. -/
def FS.set (fs : FS) (path : String) (n : Node) : FS :=
  fun l => if l = resolve path then n else fs l

/-- Go `appendFile` (lines 113-124): open an existing file for appending (there is no
`O_CREATE`), write, report either failure on standard output. -/
def appendFile (S : Sys) (filename content : String) : Prog Unit := do
  emit (.append filename)
  let fs ← getFS
  match fs.node filename with
  | .file old r true =>
    let res := deviceWrite S filename content
    fun w => .ret () ⟨w.fs.set filename (.file (old ++ res.1) r true), w.trace⟩
    if res.2 then println "Error appending to file:"
  | _ => println "Error opening file:"

/-- Go `os.WriteFile(dst, data, 0644)`: open with `O_WRONLY|O_CREATE|O_TRUNC`, write.
The result is the new file system and whether an error is returned. -/
def osWriteFile (S : Sys) (fs : FS) (dst data : String) : FS × Bool :=
  match fs.node dst with
  | .file _ r true =>
    let res := deviceWrite S dst data
    (fs.set dst (.file res.1 r true), res.2)
  | .absent =>
    if S.creatable dst then
      let res := deviceWrite S dst data
      (fs.set dst (.file res.1 true true), res.2)
    else (fs, true)
  | _ => (fs, true)

/-- Go `copyFile` (lines 126-137). -/
def copyFile (S : Sys) (src dst : String) : Prog Unit := do
  let fs ← getFS
  match osReadFile fs src with
  | none => println "Error reading file:"
  | some data =>
    emit (.write dst)
    let res := osWriteFile S fs dst data
    fun w => .ret () ⟨res.1, w.trace⟩
    if res.2 then println "Error copying file:"

/-- Go `(*os.ProcessState).ExitCode`: -1 on the nil state of a command that never
started, the exit code otherwise. -/
def ExitCode (ps : Option Int) : Int :=
  match ps with
  | none => -1
  | some c => c

/-- Go `executeCommand` (lines 139-149): run the child, print an error line when
`cmd.Run` returns an error (the child did not start or did not exit with 0), and
return the exit code. -/
def executeCommand (S : Sys) (command : String) (args : List String) : Prog Int := do
  emit (.exec (command :: args))
  let fs ← getFS
  let res := S.run (command :: args) fs
  fun w => .ret () ⟨res.2, w.trace⟩
  if res.1 ≠ some 0 then println "Error executing command:"
  pure (ExitCode res.1)

/-! ## Detection -/

/-- Go `strings.HasPrefix` on rune sequences. -/
def hasPrefix : List Char → List Char → Bool
  | _, [] => true
  | [], _ :: _ => false
  | a :: s, b :: p => a == b && hasPrefix s p

/-- Go `strings.Contains` on rune sequences: `substr` starts at some position. -/
def containsRunes : List Char → List Char → Bool
  | [], substr => hasPrefix [] substr
  | a :: s, substr => hasPrefix (a :: s) substr || containsRunes s substr

/-- Go `strings.Contains`. -/
def Contains (s substr : String) : Bool := containsRunes s.data substr.data

/-- Go `unicode.ToLower`: ASCII is handled inline, the rest by the case tables. -/
def lowerRune (S : Sys) (r : Char) : Char :=
  if r.toNat ≤ 127 then
    if 65 ≤ r.toNat ∧ r.toNat ≤ 90 then Char.ofNat (r.toNat + 32) else r
  else S.unicodeLower r

/-- Go `strings.ToLower`. -/
def ToLower (S : Sys) (s : String) : String := String.mk (s.data.map (lowerRune S))

/-- Go `IdentifyDistro` (lines 82-94). -/
def IdentifyDistro (S : Sys) (fs : FS) (releaseFile : String) : Distro :=
  let contents := ToLower S (readFile fs releaseFile)
  if Contains contents "debian" then Distro.Debian
  else if Contains contents "alpine" then Distro.Alpine
  else if Contains contents "fedora" then Distro.Fedora
  else Distro.Unknown

/-! ## Installation procedures -/

/-- Go `RootCaFile` (line 15). -/
def RootCaFile : String := "/cacert.pem"

/-- Go `OsInfoFiles` (line 17). -/
def OsInfoFiles : Fin 2 → String
  | 0 => "/etc/os-release"
  | 1 => "/usr/lib/os-release"

/-- Go `InstallCertsOnFedora` (lines 43-61). -/
def InstallCertsOnFedora (S : Sys) (rootCaFile : String) : Prog Unit := do
  println "Installing certs for Fedora"
  copyFile S rootCaFile "/etc/pki/ca-trust/source/anchors"
  let fs ← getFS
  if fileExists fs "/usr/bin/update-ca-trust" then
    let result ← executeCommand S "/usr/bin/update-ca-trust" []
    println ("Installed certs using update-ca-trust: " ++ toString result)
  else if fileExists fs "/usr/bin/trust" then
    let result ← executeCommand S "/usr/bin/trust" ["anchor", rootCaFile]
    println ("Installed certs using trust: " ++ toString result)
  else if fileExists fs "/usr/bin/p11-kit" then
    let result ← executeCommand S "/usr/bin/p11-kit"
      ["extract", "--comment", "--format=pem-bundle", "--filter=certificates", "--overwrite",
        "--purpose", "server-auth", "/etc/pki/ca-trust/extracted/pem/tls-ca-bundle.pem"]
    println ("Installed certs using p11-kit: " ++ toString result)
  else
    println "Couldn't attempt Fedora install approach 3 because update-ca-trust, trust, and p11-kit were missing."
    osExit 0

/-- Go `InstallCertsOnDebian` (lines 63-80). -/
def InstallCertsOnDebian (S : Sys) (rootCaFile : String) : Prog Unit := do
  println "Installing certs for Debian"
  copyFile S rootCaFile ("/usr/local/share/ca-certificates/" ++ rootCaFile)
  let fs ← getFS
  if !fileExists fs "/usr/sbin/update-ca-certificates" then
    if !fileExists fs "/usr/bin/apt" then
      println "update-ca-certificates missing, and can't install it because apt is missing. Not installing certs."
      osExit 0
    let _ ← executeCommand S "/usr/bin/apt" ["update"]
    let _ ← executeCommand S "/usr/bin/apt" ["install", "-y", "ca-certificates"]
  let _ ← executeCommand S "/usr/sbin/update-ca-certificates" []

/-- Go `InstallCertsForDistro` (lines 31-41). -/
def InstallCertsForDistro (S : Sys) (distro : Distro) : Prog Unit := do
  match distro with
  | .Alpine =>
    println "Installing certs for Alpine"
    let fs ← getFS
    appendFile S "/etc/ssl/certs/ca-certificates.crt" (readFile fs RootCaFile)
  | .Debian => InstallCertsOnDebian S RootCaFile
  | .Fedora => InstallCertsOnFedora S RootCaFile
  | .Unknown => pure ()

/-- Go `main` (lines 19-29). -/
def main (S : Sys) : Prog Unit := do
  let fs ← getFS
  if fileExists fs (OsInfoFiles 0) && !isStringEmpty (readFile fs (OsInfoFiles 0)) then
    let distro := IdentifyDistro S fs (OsInfoFiles 0)
    InstallCertsForDistro S distro
  else if fileExists fs (OsInfoFiles 1) && !isStringEmpty (readFile fs (OsInfoFiles 1)) then
    let distro := IdentifyDistro S fs (OsInfoFiles 1)
    InstallCertsForDistro S distro
  else
    println "Could not identify distro, so did not install certs."

/-- A run of the program on the file system `fs`. -/
def runMain (S : Sys) (fs : FS) : Outcome Unit := main S ⟨fs, []⟩

/-! ## Observations on a trace -/

/-- The external commands of a trace, in order. -/
def commands (t : List Event) : List (List String) :=
  t.filterMap fun e => match e with
    | .exec argv => some argv
    | _ => none

/-- The file operations of the program itself that open a path for writing, in
order. -/
def writes (t : List Event) : List Event :=
  t.filter fun e => match e with
    | .append _ => true
    | .write _ => true
    | _ => false

/-- The lines the program itself printed, in order. -/
def printed (t : List Event) : List String :=
  t.filterMap fun e => match e with
    | .println m => some m
    | _ => none

/-- The release file `main` settles on: the first of `OsInfoFiles` that exists and
reads as a non-empty string. -/
def selected (fs : FS) : Option String :=
  if fileExists fs (OsInfoFiles 0) && !isStringEmpty (readFile fs (OsInfoFiles 0)) then
    some (OsInfoFiles 0)
  else if fileExists fs (OsInfoFiles 1) && !isStringEmpty (readFile fs (OsInfoFiles 1)) then
    some (OsInfoFiles 1)
  else none

/-- The detector in the words of the specification, on the lower-cased contents:
the first of the three names, in the order debian, alpine, fedora, that occurs
anywhere decides; none of them gives `Unknown`. -/
def detectSpec (lowered : List Char) : Distro :=
  if "debian".data <:+: lowered then .Debian
  else if "alpine".data <:+: lowered then .Alpine
  else if "fedora".data <:+: lowered then .Fedora
  else .Unknown

/-! ## Closed forms of the shims

The file system and the events each shim leaves, as functions of the file system
it starts on. -/

/-- The file system after `copyFile`. -/
def copyFS (S : Sys) (fs : FS) (src dst : String) : FS :=
  match osReadFile fs src with
  | none => fs
  | some data => (osWriteFile S fs dst data).1

/-- The events of `copyFile`. -/
def copyEvents (S : Sys) (fs : FS) (src dst : String) : List Event :=
  match osReadFile fs src with
  | none => [.println "Error reading file:"]
  | some data =>
    .write dst :: (if (osWriteFile S fs dst data).2 then [.println "Error copying file:"] else [])

/-- The file system after `appendFile`. -/
def appendFS (S : Sys) (fs : FS) (filename content : String) : FS :=
  match fs.node filename with
  | .file old r true => fs.set filename (.file (old ++ (deviceWrite S filename content).1) r true)
  | _ => fs

/-- The events of `appendFile`. -/
def appendEvents (S : Sys) (fs : FS) (filename content : String) : List Event :=
  .append filename ::
    (match fs.node filename with
     | .file _ _ true =>
       if (deviceWrite S filename content).2 then [.println "Error appending to file:"] else []
     | _ => [.println "Error opening file:"])

/-- The events of `executeCommand`. -/
def execEvents (S : Sys) (fs : FS) (argv : List String) : List Event :=
  .exec argv :: (if (S.run argv fs).1 ≠ some 0 then [.println "Error executing command:"] else [])

/-- A platform on which every write and every tool succeeds and tools leave the
file system alone. -/
def quietPlatform : Sys :=
  ⟨id, fun _ => true, fun _ => none, fun _ fs => (some 0, fs)⟩

/-- A platform on which no tool starts, no file can be created and a write stops
after three runes. -/
def hostilePlatform : Sys :=
  ⟨id, fun _ => false, fun _ => some 3, fun _ fs => (none, fs)⟩

/-- The end-to-end example of the specification: a Debian release file, the
certificate, and `update-ca-certificates` installed. -/
def debianImage : FS := fun l =>
  if l = resolve "/etc/os-release" then .file "ID=debian\nVERSION=11\n" true true
  else if l = resolve "/usr/sbin/update-ca-certificates" then .file "" true true
  else if l = resolve "/cacert.pem" then .file "CERT" true true
  else .absent

/-- A Debian derivative that only has the secondary release file, and `apt` but
not `update-ca-certificates`. -/
def aptOnlyImage : FS := fun l =>
  if l = resolve "/usr/lib/os-release" then .file "ID=ubuntu\nID_LIKE=DEBIAN\n" true true
  else if l = resolve "/usr/bin/apt" then .file "" true true
  else if l = resolve "/cacert.pem" then .file "CERT" true true
  else .absent

/-- An Alpine image with an existing bundle. -/
def alpineImage : FS := fun l =>
  if l = resolve "/etc/os-release" then .file "NAME=Alpine Linux\nID=alpine\n" true true
  else if l = resolve "/etc/ssl/certs/ca-certificates.crt" then .file "OLD" true true
  else if l = resolve "/cacert.pem" then .file "CERT" true true
  else .absent

/-- A Fedora image without any of the three trust tools. -/
def bareFedoraImage : FS := fun l =>
  if l = resolve "/etc/os-release" then .file "ID=FEDORA" true true
  else if l = resolve "/cacert.pem" then .file "CERT" true true
  else .absent

/-- An image whose release file names none of the three distributions. -/
def archImage : FS := fun l =>
  if l = resolve "/etc/os-release" then .file "ID=arch\n" true true
  else if l = resolve "/cacert.pem" then .file "CERT" true true
  else .absent

/-- An image without the primary release file, whose secondary release file has
contents naming Debian but may not be read. -/
def unreadableSecondaryImage : FS := fun l =>
  if l = resolve "/usr/lib/os-release" then .file "ID=debian\n" false true
  else if l = resolve "/usr/sbin/update-ca-certificates" then .file "" true true
  else if l = resolve "/cacert.pem" then .file "CERT" true true
  else .absent

/-- An image without anything. -/
def emptyImage : FS := fun _ => .absent

/-! ## Detection: the substring test -/

theorem hasPrefix_iff (s p : List Char) : hasPrefix s p = true ↔ p <+: s := by
  induction s generalizing p with
  | nil => cases p <;> simp [hasPrefix]
  | cons a s ih =>
    cases p with
    | nil => simp [hasPrefix]
    | cons b p =>
      simp only [hasPrefix, Bool.and_eq_true, beq_iff_eq, ih, List.cons_prefix_cons]
      constructor <;> rintro ⟨h1, h2⟩ <;> exact ⟨h1.symm, h2⟩

theorem containsRunes_iff (s p : List Char) : containsRunes s p = true ↔ p <:+: s := by
  induction s with
  | nil => cases p <;> simp [containsRunes, hasPrefix]
  | cons a s ih =>
    simp only [containsRunes, Bool.or_eq_true, hasPrefix_iff, ih, List.infix_cons_iff]

theorem Contains_iff (s p : String) : Contains s p = true ↔ p.data <:+: s.data :=
  containsRunes_iff _ _

theorem ToLower_append (S : Sys) (a b : String) :
    ToLower S (a ++ b) = ToLower S a ++ ToLower S b := by
  simp [ToLower, String.ext_iff]

theorem infix_ToLower (S : Sys) (pre w post : String) :
    (ToLower S w).data <:+: (ToLower S (pre ++ w ++ post)).data := by
  rw [ToLower_append, ToLower_append]
  exact ⟨(ToLower S pre).data, (ToLower S post).data, by simp⟩

theorem IdentifyDistro_eq_detectSpec (S : Sys) (fs : FS) (f : String) :
    IdentifyDistro S fs f = detectSpec (ToLower S (readFile fs f)).data := by
  simp only [IdentifyDistro, detectSpec, Contains_iff]

theorem isStringEmpty_iff (s : String) : isStringEmpty s = true ↔ s = "" := by
  unfold isStringEmpty
  rw [beq_iff_eq]
  constructor
  · intro h
    apply String.ext
    exact List.length_eq_zero.mp h
  · rintro rfl
    rfl

/-! ## The shims, run on a world -/

theorem bind_run {α β : Type} (m : Prog α) (f : α → Prog β) (w : World) :
    (m >>= f) w = Prog.bind m f w := rfl

theorem pure_run {α : Type} (a : α) (w : World) : (pure a : Prog α) w = .ret a w := rfl

theorem emit_run (e : Event) (w : World) : emit e w = .ret () ⟨w.fs, w.trace ++ [e]⟩ := rfl

theorem println_run (m : String) (w : World) :
    println m w = .ret () ⟨w.fs, w.trace ++ [.println m]⟩ := rfl

theorem getFS_run (w : World) : getFS w = .ret w.fs w := rfl

theorem copyFile_run (S : Sys) (src dst : String) (w : World) :
    copyFile S src dst w
      = .ret () ⟨copyFS S w.fs src dst, w.trace ++ copyEvents S w.fs src dst⟩ := by
  simp only [copyFile, bind_run, Prog.bind, getFS_run, copyFS, copyEvents]
  cases h : osReadFile w.fs src with
  | none => simp [println_run]
  | some data =>
    simp only [emit_run, bind_run, Prog.bind]
    by_cases h2 : (osWriteFile S w.fs dst data).2 = true
    · simp [h2, println_run]
    · simp [h2, pure_run]

theorem appendFile_run (S : Sys) (f c : String) (w : World) :
    appendFile S f c w = .ret () ⟨appendFS S w.fs f c, w.trace ++ appendEvents S w.fs f c⟩ := by
  simp only [appendFile, bind_run, Prog.bind, getFS_run, emit_run, appendFS, appendEvents]
  rcases h : w.fs.node f with _ | _ | ⟨old, r, _ | _⟩
  · simp [println_run]
  · simp [println_run]
  · simp [println_run]
  · by_cases h2 : (deviceWrite S f c).2 = true
    · simp [h2, println_run, bind_run, Prog.bind]
    · simp [h2, pure_run, bind_run, Prog.bind]

theorem executeCommand_run (S : Sys) (c : String) (a : List String) (w : World) :
    executeCommand S c a w
      = .ret (ExitCode (S.run (c :: a) w.fs).1)
          ⟨(S.run (c :: a) w.fs).2, w.trace ++ execEvents S w.fs (c :: a)⟩ := by
  simp only [executeCommand, bind_run, Prog.bind, getFS_run, emit_run, execEvents]
  by_cases h : (S.run (c :: a) w.fs).1 = some 0
  · simp [h, pure_run, bind_run, Prog.bind]
  · simp [h, pure_run, bind_run, Prog.bind, println_run]

/-! ## The procedures, run on a world -/

theorem InstallCertsOnDebian_run (S : Sys) (src : String) (w : World) :
    InstallCertsOnDebian S src w =
      (let dst := "/usr/local/share/ca-certificates/" ++ src
       let fs1 := copyFS S w.fs src dst
       let t1 := w.trace ++ .println "Installing certs for Debian" :: copyEvents S w.fs src dst
       if fileExists fs1 "/usr/sbin/update-ca-certificates" then
         .ret () ⟨(S.run ["/usr/sbin/update-ca-certificates"] fs1).2,
           t1 ++ execEvents S fs1 ["/usr/sbin/update-ca-certificates"]⟩
       else if fileExists fs1 "/usr/bin/apt" then
         let fs2 := (S.run ["/usr/bin/apt", "update"] fs1).2
         let fs3 := (S.run ["/usr/bin/apt", "install", "-y", "ca-certificates"] fs2).2
         .ret () ⟨(S.run ["/usr/sbin/update-ca-certificates"] fs3).2,
           t1 ++ execEvents S fs1 ["/usr/bin/apt", "update"]
              ++ execEvents S fs2 ["/usr/bin/apt", "install", "-y", "ca-certificates"]
              ++ execEvents S fs3 ["/usr/sbin/update-ca-certificates"]⟩
       else
         .exit 0 ⟨fs1, t1 ++ [.println
           "update-ca-certificates missing, and can't install it because apt is missing. Not installing certs."]⟩) := by
  simp only [InstallCertsOnDebian, bind_run, Prog.bind, println_run, copyFile_run, getFS_run]
  by_cases h1 : fileExists (copyFS S w.fs src ("/usr/local/share/ca-certificates/" ++ src))
      "/usr/sbin/update-ca-certificates" = true
  · simp [h1, pure_run, executeCommand_run, bind_run, Prog.bind]
  · by_cases h2 : fileExists (copyFS S w.fs src ("/usr/local/share/ca-certificates/" ++ src))
      "/usr/bin/apt" = true
    · simp [h1, h2, pure_run, executeCommand_run, bind_run, Prog.bind]
    · simp [h1, h2, pure_run, executeCommand_run, bind_run, Prog.bind, println_run, osExit]

theorem InstallCertsOnFedora_run (S : Sys) (src : String) (w : World) :
    InstallCertsOnFedora S src w =
      (let fs1 := copyFS S w.fs src "/etc/pki/ca-trust/source/anchors"
       let t1 := w.trace ++ .println "Installing certs for Fedora"
         :: copyEvents S w.fs src "/etc/pki/ca-trust/source/anchors"
       let a1 := ["/usr/bin/update-ca-trust"]
       let a2 := ["/usr/bin/trust", "anchor", src]
       let a3 := ["/usr/bin/p11-kit", "extract", "--comment", "--format=pem-bundle",
         "--filter=certificates", "--overwrite", "--purpose", "server-auth",
         "/etc/pki/ca-trust/extracted/pem/tls-ca-bundle.pem"]
       if fileExists fs1 "/usr/bin/update-ca-trust" then
         .ret () ⟨(S.run a1 fs1).2, t1 ++ execEvents S fs1 a1 ++ [.println
           ("Installed certs using update-ca-trust: " ++ toString (ExitCode (S.run a1 fs1).1))]⟩
       else if fileExists fs1 "/usr/bin/trust" then
         .ret () ⟨(S.run a2 fs1).2, t1 ++ execEvents S fs1 a2 ++ [.println
           ("Installed certs using trust: " ++ toString (ExitCode (S.run a2 fs1).1))]⟩
       else if fileExists fs1 "/usr/bin/p11-kit" then
         .ret () ⟨(S.run a3 fs1).2, t1 ++ execEvents S fs1 a3 ++ [.println
           ("Installed certs using p11-kit: " ++ toString (ExitCode (S.run a3 fs1).1))]⟩
       else
         .exit 0 ⟨fs1, t1 ++ [.println
           "Couldn't attempt Fedora install approach 3 because update-ca-trust, trust, and p11-kit were missing."]⟩) := by
  simp only [InstallCertsOnFedora, bind_run, Prog.bind, println_run, copyFile_run, getFS_run]
  by_cases h1 : fileExists (copyFS S w.fs src "/etc/pki/ca-trust/source/anchors")
      "/usr/bin/update-ca-trust" = true
  · simp [h1, executeCommand_run, bind_run, Prog.bind, println_run]
  · by_cases h2 : fileExists (copyFS S w.fs src "/etc/pki/ca-trust/source/anchors")
        "/usr/bin/trust" = true
    · simp [h1, h2, executeCommand_run, bind_run, Prog.bind, println_run]
    · by_cases h3 : fileExists (copyFS S w.fs src "/etc/pki/ca-trust/source/anchors")
          "/usr/bin/p11-kit" = true
      · simp [h1, h2, h3, executeCommand_run, bind_run, Prog.bind, println_run]
      · simp [h1, h2, h3, executeCommand_run, bind_run, Prog.bind, println_run, osExit]

theorem InstallCertsForDistro_run (S : Sys) (d : Distro) (w : World) :
    InstallCertsForDistro S d w =
      (match d with
       | .Alpine =>
         .ret () ⟨appendFS S w.fs "/etc/ssl/certs/ca-certificates.crt" (readFile w.fs RootCaFile),
           w.trace ++ .println "Installing certs for Alpine"
             :: appendEvents S w.fs "/etc/ssl/certs/ca-certificates.crt" (readFile w.fs RootCaFile)⟩
       | .Debian => InstallCertsOnDebian S RootCaFile w
       | .Fedora => InstallCertsOnFedora S RootCaFile w
       | .Unknown => .ret () w) := by
  cases d <;>
    simp [InstallCertsForDistro, bind_run, Prog.bind, println_run, getFS_run, appendFile_run,
      pure_run]

theorem runMain_eq (S : Sys) (fs : FS) :
    runMain S fs =
      (match selected fs with
       | some f => InstallCertsForDistro S (IdentifyDistro S fs f) ⟨fs, []⟩
       | none => .ret () ⟨fs, [.println "Could not identify distro, so did not install certs."]⟩) := by
  simp only [runMain, main, selected, bind_run, Prog.bind, getFS_run]
  split
  · rfl
  · split
    · rfl
    · simp [println_run]

/-! ## Observations of the shims -/

theorem commands_append (a b : List Event) : commands (a ++ b) = commands a ++ commands b := by
  simp [commands]

theorem writes_append (a b : List Event) : writes (a ++ b) = writes a ++ writes b := by
  simp [writes]

theorem printed_append (a b : List Event) : printed (a ++ b) = printed a ++ printed b := by
  simp [printed]

theorem writes_nil : writes [] = [] := rfl

theorem commands_println (m : String) (t : List Event) :
    commands (.println m :: t) = commands t := rfl

theorem writes_println (m : String) (t : List Event) :
    writes (.println m :: t) = writes t := rfl

theorem printed_println (m : String) (t : List Event) :
    printed (.println m :: t) = m :: printed t := rfl

theorem commands_copyEvents (S : Sys) (fs : FS) (src dst : String) :
    commands (copyEvents S fs src dst) = [] := by
  unfold copyEvents
  cases osReadFile fs src with
  | none => simp [commands]
  | some d => by_cases h : (osWriteFile S fs dst d).2 = true <;> simp [commands, h]

theorem writes_copyEvents (S : Sys) (fs : FS) (src dst : String) :
    writes (copyEvents S fs src dst) = if (osReadFile fs src).isSome then [.write dst] else [] := by
  unfold copyEvents
  cases osReadFile fs src with
  | none => simp [writes]
  | some d => by_cases h : (osWriteFile S fs dst d).2 = true <;> simp [writes, h]

theorem printed_copyEvents (S : Sys) (fs : FS) (src dst m : String)
    (h : m ∈ printed (copyEvents S fs src dst)) :
    m = "Error reading file:" ∨ m = "Error copying file:" := by
  unfold copyEvents at h
  cases hr : osReadFile fs src with
  | none => simp [printed, hr] at h; exact Or.inl h
  | some d =>
    by_cases h2 : (osWriteFile S fs dst d).2 = true
    · simp [printed, hr, h2] at h; exact Or.inr h
    · simp [printed, hr, h2] at h

theorem commands_execEvents (S : Sys) (fs : FS) (argv : List String) :
    commands (execEvents S fs argv) = [argv] := by
  unfold execEvents
  by_cases h : (S.run argv fs).1 = some 0 <;> simp [commands, h]

theorem writes_execEvents (S : Sys) (fs : FS) (argv : List String) :
    writes (execEvents S fs argv) = [] := by
  unfold execEvents
  by_cases h : (S.run argv fs).1 = some 0 <;> simp [writes, h]

theorem commands_appendEvents (S : Sys) (fs : FS) (f c : String) :
    commands (appendEvents S fs f c) = [] := by
  unfold appendEvents
  rcases fs.node f with _ | _ | ⟨old, r, _ | _⟩
  · simp [commands]
  · simp [commands]
  · simp [commands]
  · by_cases h : (deviceWrite S f c).2 = true <;> simp [commands, h]

theorem osWriteFile_frame (S : Sys) (fs : FS) (dst d : String) (l : Loc)
    (h : l ≠ resolve dst) : (osWriteFile S fs dst d).1 l = fs l := by
  unfold osWriteFile
  rcases fs.node dst with _ | _ | ⟨old, r, _ | _⟩
  · by_cases hc : S.creatable dst = true <;> simp [hc, FS.set, h]
  · rfl
  · rfl
  · simp [FS.set, h]

theorem copyFS_frame (S : Sys) (fs : FS) (src dst : String) (l : Loc)
    (h : l ≠ resolve dst) : copyFS S fs src dst l = fs l := by
  unfold copyFS
  cases osReadFile fs src with
  | none => rfl
  | some d => exact osWriteFile_frame S fs dst d l h

theorem appendFS_frame (S : Sys) (fs : FS) (f c : String) (l : Loc)
    (h : l ≠ resolve f) : appendFS S fs f c l = fs l := by
  unfold appendFS
  rcases fs.node f with _ | _ | ⟨old, r, _ | _⟩
  · rfl
  · rfl
  · rfl
  · simp [FS.set, h]

theorem fileExists_copyFS (S : Sys) (fs : FS) (src dst q : String)
    (h : resolve q ≠ resolve dst) :
    fileExists (copyFS S fs src dst) q = fileExists fs q := by
  simp [fileExists, FS.node, copyFS_frame S fs src dst _ h]

theorem deviceWrite_prefix (S : Sys) (p d : String) :
    (deviceWrite S p d).1.data <+: d.data := by
  unfold deviceWrite
  cases S.writeQuota p with
  | none => exact List.prefix_refl _
  | some k => exact List.take_prefix k d.data

theorem deviceWrite_complete (S : Sys) (p d : String) (h : (deviceWrite S p d).2 = false) :
    (deviceWrite S p d).1 = d := by
  unfold deviceWrite at h ⊢
  cases hq : S.writeQuota p with
  | none => rfl
  | some k =>
    simp only [hq, decide_eq_false_iff_not, not_lt] at h
    apply String.ext
    exact List.take_of_length_le h

theorem usable_iff (fs : FS) (p : String) :
    (fileExists fs p && !isStringEmpty (readFile fs p)) = true
      ↔ ∃ c w, fs.node p = .file c true w ∧ c ≠ "" := by
  have he : ∀ s, (!isStringEmpty s) = true ↔ s ≠ "" := by
    intro s
    rw [Bool.not_eq_true', ← Bool.not_eq_true, Ne, isStringEmpty_iff]
  rw [Bool.and_eq_true, he]
  unfold fileExists readFile osReadFile
  rcases fs.node p with _ | _ | ⟨c, _ | _, w⟩ <;> simp

/-! ## Runs that identify nothing -/

theorem runMain_of_selected (S : Sys) (fs : FS) (f : String) (h : selected fs = some f) :
    runMain S fs = InstallCertsForDistro S (IdentifyDistro S fs f) ⟨fs, []⟩ := by
  rw [runMain_eq, h]

theorem runMain_of_unknown (S : Sys) (fs : FS) (f : String) (h : selected fs = some f)
    (hu : IdentifyDistro S fs f = .Unknown) : runMain S fs = .ret () ⟨fs, []⟩ := by
  rw [runMain_of_selected S fs f h, hu, InstallCertsForDistro_run]

theorem selected_nonempty (fs : FS) (f : String) (h : selected fs = some f) :
    readFile fs f ≠ "" := by
  unfold selected at h
  split at h
  · rename_i h0
    obtain ⟨c, w, hc, hne⟩ := (usable_iff fs _).mp h0
    cases h
    simpa [readFile, osReadFile, hc] using hne
  · split at h
    · rename_i h1
      obtain ⟨c, w, hc, hne⟩ := (usable_iff fs _).mp h1
      cases h
      simpa [readFile, osReadFile, hc] using hne
    · cases h

theorem exitCode_InstallCertsForDistro (S : Sys) (d : Distro) (w : World) :
    (InstallCertsForDistro S d w).exitCode = 0 := by
  rw [InstallCertsForDistro_run]
  cases d
  · rfl
  · rfl
  · simp only [InstallCertsOnDebian_run]
    split_ifs <;> rfl
  · simp only [InstallCertsOnFedora_run]
    split_ifs <;> rfl

theorem usable_of_readFile (fs : FS) (p c : String) (h : readFile fs p = c) (hne : c ≠ "") :
    (fileExists fs p && !isStringEmpty (readFile fs p)) = true := by
  rw [usable_iff]
  unfold readFile osReadFile at h
  rcases hp : fs.node p with _ | _ | ⟨d, _ | _, w⟩
  · rw [hp] at h; exact absurd h.symm hne
  · rw [hp] at h; exact absurd h.symm hne
  · rw [hp] at h; exact absurd h.symm hne
  · rw [hp] at h
    have h2 : d = c := h
    subst h2
    exact ⟨d, w, rfl, hne⟩

theorem commands_debian_present (S : Sys) (w : World)
    (h : fileExists w.fs "/usr/sbin/update-ca-certificates" = true) :
    ∃ w1, InstallCertsOnDebian S RootCaFile w = .ret () w1
      ∧ commands w1.trace = commands w.trace ++ [["/usr/sbin/update-ca-certificates"]] := by
  have hx : fileExists (copyFS S w.fs RootCaFile ("/usr/local/share/ca-certificates/" ++ RootCaFile))
      "/usr/sbin/update-ca-certificates" = true := by
    rw [fileExists_copyFS S w.fs _ _ _ (by decide)]
    exact h
  rw [InstallCertsOnDebian_run]
  simp only [hx, if_true]
  refine ⟨_, rfl, ?_⟩
  simp [commands_append, commands_println, commands_copyEvents, commands_execEvents]

theorem writes_fedora (S : Sys) (fs : FS) :
    writes (InstallCertsOnFedora S RootCaFile ⟨fs, []⟩).world.trace
      = (if (osReadFile fs RootCaFile).isSome then
          [.write "/etc/pki/ca-trust/source/anchors"] else []) := by
  rw [InstallCertsOnFedora_run]
  simp only []
  split_ifs <;>
    simp [Outcome.world, writes_append, writes_println, writes_copyEvents, writes_execEvents,
      writes_nil, *]

/-- C1: for the contents `c` of the release file, `IdentifyDistro` is the detector of
the specification on the lower-cased `c`: Debian if it contains "debian", otherwise
Alpine if it contains "alpine", otherwise Fedora if it contains "fedora", otherwise
Unknown.  The match does not depend on case or position: a word that lower-cases
to one of the names, anywhere in `c`, is found, and the earlier name wins. -/
theorem identifyDistro_priority (S : Sys) (fs : FS) (releaseFile c : String)
    (hc : readFile fs releaseFile = c) :
    IdentifyDistro S fs releaseFile = detectSpec (ToLower S c).data
    ∧ (∀ pre w post, c = pre ++ w ++ post → ToLower S w = "debian" →
        IdentifyDistro S fs releaseFile = .Debian)
    ∧ (∀ pre w post, c = pre ++ w ++ post → ToLower S w = "alpine" →
        ¬ "debian".data <:+: (ToLower S c).data →
        IdentifyDistro S fs releaseFile = .Alpine)
    ∧ (∀ pre w post, c = pre ++ w ++ post → ToLower S w = "fedora" →
        ¬ "debian".data <:+: (ToLower S c).data →
        ¬ "alpine".data <:+: (ToLower S c).data →
        IdentifyDistro S fs releaseFile = .Fedora)
    ∧ (¬ "debian".data <:+: (ToLower S c).data →
        ¬ "alpine".data <:+: (ToLower S c).data →
        ¬ "fedora".data <:+: (ToLower S c).data →
        IdentifyDistro S fs releaseFile = .Unknown) := by
  subst hc
  rw [IdentifyDistro_eq_detectSpec]
  refine ⟨rfl, ?_, ?_, ?_, ?_⟩
  · intro pre w post hw hl
    have h := infix_ToLower S pre w post
    rw [← hw, hl] at h
    simp [detectSpec, h]
  · intro pre w post hw hl hd
    have h := infix_ToLower S pre w post
    rw [← hw, hl] at h
    simp [detectSpec, h, hd]
  · intro pre w post hw hl hd ha
    have h := infix_ToLower S pre w post
    rw [← hw, hl] at h
    simp [detectSpec, h, hd, ha]
  · intro hd ha hf
    simp [detectSpec, hd, ha, hf]

/-- Witness for C1: "DeBiAn" after "Alpine" in the contents still gives Debian. -/
theorem identifyDistro_priority_witness :
    IdentifyDistro quietPlatform
        (FS.set emptyImage "/etc/os-release" (.file "NAME=Alpine (DeBiAn based)" true true))
        "/etc/os-release" = .Debian :=
  (identifyDistro_priority quietPlatform
      (FS.set emptyImage "/etc/os-release" (.file "NAME=Alpine (DeBiAn based)" true true))
      "/etc/os-release" "NAME=Alpine (DeBiAn based)" (by decide)).2.1
      "NAME=Alpine (" "DeBiAn" " based)" (by decide) (by decide)

/-- C2: in every environment a run of `main` ends with exit status 0: it either
returns from `main` or calls `os.Exit(0)`, it never panics, and `executeCommand`
returns a value also for a command that never started. -/
theorem main_exits_zero (S : Sys) (fs : FS) :
    (runMain S fs).exitCode = 0
    ∧ ((∃ w, runMain S fs = .ret () w) ∨ (∃ w, runMain S fs = .exit 0 w))
    ∧ (∀ w, runMain S fs ≠ .panicked w)
    ∧ (∀ c a w, ∃ w1, executeCommand S c a w = .ret (ExitCode (S.run (c :: a) w.fs).1) w1)
    ∧ ExitCode none = -1 := by
  have h0 : (runMain S fs).exitCode = 0 := by
    rw [runMain_eq]
    split
    · exact exitCode_InstallCertsForDistro S _ _
    · rfl
  refine ⟨h0, ?_, ?_, ?_, rfl⟩
  · cases h : runMain S fs with
    | ret a w => exact Or.inl ⟨w, rfl⟩
    | exit c w =>
      rw [h] at h0
      have hc : c = 0 := h0
      subst hc
      exact Or.inr ⟨w, rfl⟩
    | panicked w =>
      rw [h] at h0
      simp [Outcome.exitCode] at h0
  · intro w hw
    rw [hw] at h0
    simp [Outcome.exitCode] at h0
  · intro c a w
    exact ⟨_, executeCommand_run S c a w⟩

/-- C3: when the release file `main` selects (it then has non-empty contents) has
none of the three names in its lower-cased contents, the detector returns Unknown
and the run writes or appends to no file and executes no command. -/
theorem unknown_installs_nothing (S : Sys) (fs : FS) (f : String)
    (hsel : selected fs = some f)
    (hd : ¬ "debian".data <:+: (ToLower S (readFile fs f)).data)
    (ha : ¬ "alpine".data <:+: (ToLower S (readFile fs f)).data)
    (hf : ¬ "fedora".data <:+: (ToLower S (readFile fs f)).data) :
    readFile fs f ≠ ""
    ∧ IdentifyDistro S fs f = .Unknown
    ∧ writes (runMain S fs).world.trace = []
    ∧ commands (runMain S fs).world.trace = []
    ∧ (runMain S fs).world.fs = fs := by
  have hu : IdentifyDistro S fs f = .Unknown := by
    rw [IdentifyDistro_eq_detectSpec]
    simp [detectSpec, hd, ha, hf]
  rw [runMain_of_unknown S fs f hsel hu]
  exact ⟨selected_nonempty fs f hsel, hu, rfl, rfl, rfl⟩

/-- Witness for C3: an Arch release file. -/
theorem unknown_installs_nothing_witness :
    IdentifyDistro quietPlatform archImage "/etc/os-release" = .Unknown
    ∧ writes (runMain quietPlatform archImage).world.trace = []
    ∧ commands (runMain quietPlatform archImage).world.trace = [] :=
  have h := unknown_installs_nothing quietPlatform archImage "/etc/os-release"
    (by decide) (by decide) (by decide) (by decide)
  ⟨h.2.1, h.2.2.1, h.2.2.2.1⟩

/-- C4, as stated, fails: with `/etc/os-release` missing and a `/usr/lib/os-release`
that exists with the non-empty contents "ID=debian\n" but cannot be read, `main`
does not dispatch on Debian: it prints the "Could not identify distro" line and
executes nothing, where the Debian procedure would have run a command. -/
theorem secondary_release_file_counterexample :
    unreadableSecondaryImage.node "/etc/os-release" = .absent
    ∧ fileExists unreadableSecondaryImage "/usr/lib/os-release" = true
    ∧ unreadableSecondaryImage.node "/usr/lib/os-release" = .file "ID=debian\n" false true
    ∧ detectSpec (ToLower quietPlatform "ID=debian\n").data = .Debian
    ∧ printed (runMain quietPlatform unreadableSecondaryImage).world.trace
        = ["Could not identify distro, so did not install certs."]
    ∧ commands (runMain quietPlatform unreadableSecondaryImage).world.trace = []
    ∧ commands (InstallCertsForDistro quietPlatform .Debian
        ⟨unreadableSecondaryImage, []⟩).world.trace = [["/usr/sbin/update-ca-certificates"]]
    ∧ (runMain quietPlatform unreadableSecondaryImage).world.trace
        ≠ (InstallCertsForDistro quietPlatform .Debian
            ⟨unreadableSecondaryImage, []⟩).world.trace := by
  decide

/-- C4, amended: when `/etc/os-release` is missing, unreadable or empty, a
`/usr/lib/os-release` that is readable with non-empty contents makes `main` dispatch
on the distro identified from these contents; and when `/usr/lib/os-release` is
missing, unreadable (a directory or a file that may not be read) or empty, `main`
prints the "Could not identify distro" line, writes no file and executes no
command. -/
theorem secondary_release_file (S : Sys) (fs : FS)
    (h0 : fs.node "/etc/os-release" = .absent ∨ fs.node "/etc/os-release" = .dir
      ∨ (∃ c w, fs.node "/etc/os-release" = .file c false w)
      ∨ (∃ r w, fs.node "/etc/os-release" = .file "" r w)) :
    (∀ c w, fs.node "/usr/lib/os-release" = .file c true w → c ≠ "" →
        runMain S fs = InstallCertsForDistro S (detectSpec (ToLower S c).data) ⟨fs, []⟩)
    ∧ ((fs.node "/usr/lib/os-release" = .absent ∨ fs.node "/usr/lib/os-release" = .dir
        ∨ (∃ c w, fs.node "/usr/lib/os-release" = .file c false w)
        ∨ (∃ r w, fs.node "/usr/lib/os-release" = .file "" r w)) →
        runMain S fs
          = .ret () ⟨fs, [.println "Could not identify distro, so did not install certs."]⟩
        ∧ printed (runMain S fs).world.trace
          = ["Could not identify distro, so did not install certs."]
        ∧ writes (runMain S fs).world.trace = []
        ∧ commands (runMain S fs).world.trace = []) := by
  have unusable : ∀ p : String, (fs.node p = .absent ∨ fs.node p = .dir
      ∨ (∃ c w, fs.node p = .file c false w) ∨ (∃ r w, fs.node p = .file "" r w)) →
      ¬ (fileExists fs p && !isStringEmpty (readFile fs p)) = true := by
    intro p hp
    rw [usable_iff]
    rintro ⟨c, w, hc, hne⟩
    rcases hp with h | h | ⟨c1, w1, h⟩ | ⟨r1, w1, h⟩
    · rw [h] at hc; cases hc
    · rw [h] at hc; cases hc
    · rw [h] at hc; cases hc
    · rw [h] at hc; cases hc; exact hne rfl
  have hp := unusable (OsInfoFiles 0) h0
  constructor
  · intro c w hc hne
    have hs : (fileExists fs (OsInfoFiles 1) && !isStringEmpty (readFile fs (OsInfoFiles 1))) = true :=
      (usable_iff fs _).mpr ⟨c, w, hc, hne⟩
    have hsel : selected fs = some "/usr/lib/os-release" := by
      unfold selected
      rw [if_neg hp, if_pos hs]
      rfl
    have hn : fs.node "/usr/lib/os-release" = .file c true w := hc
    rw [runMain_of_selected S fs _ hsel, IdentifyDistro_eq_detectSpec]
    simp [readFile, osReadFile, hn]
  · intro h1
    have hs := unusable (OsInfoFiles 1) h1
    have hsel : selected fs = none := by
      unfold selected
      rw [if_neg hp, if_neg hs]
    rw [runMain_eq, hsel]
    exact ⟨rfl, rfl, rfl, rfl⟩

/-- Witness for C4: with only the secondary release file, the run is the Debian
procedure; with neither, only the message is printed. -/
theorem secondary_release_file_witness :
    runMain quietPlatform aptOnlyImage
      = InstallCertsForDistro quietPlatform
          (detectSpec (ToLower quietPlatform "ID=ubuntu\nID_LIKE=DEBIAN\n").data) ⟨aptOnlyImage, []⟩
    ∧ printed (runMain quietPlatform emptyImage).world.trace
      = ["Could not identify distro, so did not install certs."] :=
  ⟨(secondary_release_file quietPlatform aptOnlyImage (Or.inl (by decide))).1
      "ID=ubuntu\nID_LIKE=DEBIAN\n" true (by decide) (by decide),
   ((secondary_release_file quietPlatform emptyImage (Or.inl (by decide))).2
      (Or.inl (by decide))).2.1⟩

/-- C5: when `/usr/sbin/update-ca-certificates` exists, the Debian procedure returns
after executing exactly one command, `/usr/sbin/update-ca-certificates` without
arguments, and no `apt` command, whatever else the environment holds.  On the
release file "ID=debian\nVERSION=11\n" the detector gives Debian, the commands of
the whole run are that single one and the exit status is 0. -/
theorem debian_skips_apt (S : Sys) (fs : FS)
    (h : fileExists fs "/usr/sbin/update-ca-certificates" = true) :
    commands (InstallCertsOnDebian S RootCaFile ⟨fs, []⟩).world.trace
      = [["/usr/sbin/update-ca-certificates"]]
    ∧ (∀ args, ("/usr/bin/apt" :: args)
        ∉ commands (InstallCertsOnDebian S RootCaFile ⟨fs, []⟩).world.trace)
    ∧ (readFile fs "/etc/os-release" = "ID=debian\nVERSION=11\n" →
        IdentifyDistro S fs "/etc/os-release" = .Debian
        ∧ commands (runMain S fs).world.trace = [["/usr/sbin/update-ca-certificates"]]
        ∧ (runMain S fs).exitCode = 0) := by
  obtain ⟨w1, hw1, hc⟩ := commands_debian_present S ⟨fs, []⟩ h
  have hcmd : commands (InstallCertsOnDebian S RootCaFile ⟨fs, []⟩).world.trace
      = [["/usr/sbin/update-ca-certificates"]] := by
    rw [hw1]
    exact hc
  refine ⟨hcmd, ?_, ?_⟩
  · intro args
    rw [hcmd]
    simp
  · intro hr
    have hid : IdentifyDistro S fs "/etc/os-release" = .Debian := by
      unfold IdentifyDistro
      rw [hr]
      rfl
    have hsel : selected fs = some "/etc/os-release" := by
      unfold selected
      have hu := usable_of_readFile fs (OsInfoFiles 0) _ hr (by decide)
      rw [if_pos hu]
      rfl
    refine ⟨hid, ?_, ?_⟩
    · rw [runMain_of_selected S fs _ hsel, hid, InstallCertsForDistro_run]
      exact hcmd
    · rw [runMain_of_selected S fs _ hsel]
      exact exitCode_InstallCertsForDistro S _ _

/-- Witness for C5: the end-to-end example, on a platform where nothing succeeds. -/
theorem debian_skips_apt_witness :
    IdentifyDistro hostilePlatform debianImage "/etc/os-release" = .Debian
    ∧ commands (runMain hostilePlatform debianImage).world.trace
      = [["/usr/sbin/update-ca-certificates"]]
    ∧ (runMain hostilePlatform debianImage).exitCode = 0 :=
  (debian_skips_apt hostilePlatform debianImage (by decide)).2.2 (by decide)

/-- C6, as stated, fails: on a Fedora image without `update-ca-trust`, `trust` and
`p11-kit` an install step is attempted all the same.  The procedure opens
`/etc/pki/ca-trust/source/anchors` for writing before it looks for the tools, and
the path, absent before, holds the certificate afterwards. -/
theorem fedora_tool_priority_counterexample :
    fileExists bareFedoraImage "/usr/bin/update-ca-trust" = false
    ∧ fileExists bareFedoraImage "/usr/bin/trust" = false
    ∧ fileExists bareFedoraImage "/usr/bin/p11-kit" = false
    ∧ writes (InstallCertsOnFedora quietPlatform RootCaFile ⟨bareFedoraImage, []⟩).world.trace
        = [.write "/etc/pki/ca-trust/source/anchors"]
    ∧ bareFedoraImage.node "/etc/pki/ca-trust/source/anchors" = .absent
    ∧ (InstallCertsOnFedora quietPlatform RootCaFile ⟨bareFedoraImage, []⟩).world.fs.node
        "/etc/pki/ca-trust/source/anchors" = .file "CERT" true true := by
  decide

/-- C6, amended: the Fedora procedure executes at most one command, the first
available of `update-ca-trust` (no arguments), `trust anchor <rootCaFile>` and the
fixed `p11-kit extract` line; its exit status is 0.  With none of the three present
it executes no command, prints the line naming the three tools exactly once, as its
last line, and leaves through `os.Exit(0)`; the copy of the certificate to
`/etc/pki/ca-trust/source/anchors`, which precedes the look for the tools, has been
attempted by then whenever `/cacert.pem` could be read. -/
theorem fedora_tool_priority (S : Sys) (fs : FS) :
    commands (InstallCertsOnFedora S RootCaFile ⟨fs, []⟩).world.trace =
      (if fileExists fs "/usr/bin/update-ca-trust" then [["/usr/bin/update-ca-trust"]]
       else if fileExists fs "/usr/bin/trust" then [["/usr/bin/trust", "anchor", RootCaFile]]
       else if fileExists fs "/usr/bin/p11-kit" then
         [["/usr/bin/p11-kit", "extract", "--comment", "--format=pem-bundle",
           "--filter=certificates", "--overwrite", "--purpose", "server-auth",
           "/etc/pki/ca-trust/extracted/pem/tls-ca-bundle.pem"]]
       else [])
    ∧ (commands (InstallCertsOnFedora S RootCaFile ⟨fs, []⟩).world.trace).length ≤ 1
    ∧ (InstallCertsOnFedora S RootCaFile ⟨fs, []⟩).exitCode = 0
    ∧ (fileExists fs "/usr/bin/update-ca-trust" = false → fileExists fs "/usr/bin/trust" = false →
        fileExists fs "/usr/bin/p11-kit" = false →
        commands (InstallCertsOnFedora S RootCaFile ⟨fs, []⟩).world.trace = []
        ∧ (printed (InstallCertsOnFedora S RootCaFile ⟨fs, []⟩).world.trace).count
            "Couldn't attempt Fedora install approach 3 because update-ca-trust, trust, and p11-kit were missing."
            = 1
        ∧ (printed (InstallCertsOnFedora S RootCaFile ⟨fs, []⟩).world.trace).getLast?
            = some "Couldn't attempt Fedora install approach 3 because update-ca-trust, trust, and p11-kit were missing."
        ∧ (∃ w, InstallCertsOnFedora S RootCaFile ⟨fs, []⟩ = .exit 0 w)
        ∧ writes (InstallCertsOnFedora S RootCaFile ⟨fs, []⟩).world.trace
            = (if (osReadFile fs RootCaFile).isSome then
                [.write "/etc/pki/ca-trust/source/anchors"] else [])) := by
  have e1 := fileExists_copyFS S fs RootCaFile "/etc/pki/ca-trust/source/anchors"
    "/usr/bin/update-ca-trust" (by decide)
  have e2 := fileExists_copyFS S fs RootCaFile "/etc/pki/ca-trust/source/anchors"
    "/usr/bin/trust" (by decide)
  have e3 := fileExists_copyFS S fs RootCaFile "/etc/pki/ca-trust/source/anchors"
    "/usr/bin/p11-kit" (by decide)
  have hcmd : commands (InstallCertsOnFedora S RootCaFile ⟨fs, []⟩).world.trace =
      (if fileExists fs "/usr/bin/update-ca-trust" then [["/usr/bin/update-ca-trust"]]
       else if fileExists fs "/usr/bin/trust" then [["/usr/bin/trust", "anchor", RootCaFile]]
       else if fileExists fs "/usr/bin/p11-kit" then
         [["/usr/bin/p11-kit", "extract", "--comment", "--format=pem-bundle",
           "--filter=certificates", "--overwrite", "--purpose", "server-auth",
           "/etc/pki/ca-trust/extracted/pem/tls-ca-bundle.pem"]]
       else []) := by
    rw [InstallCertsOnFedora_run]
    simp only [e1, e2, e3]
    split_ifs <;>
      simp [Outcome.world, commands_append, commands_println, commands_copyEvents,
        commands_execEvents] <;> rfl
  have hexit : (InstallCertsOnFedora S RootCaFile ⟨fs, []⟩).exitCode = 0 := by
    rw [InstallCertsOnFedora_run]
    simp only []
    split_ifs <;> rfl
  refine ⟨hcmd, ?_, hexit, ?_⟩
  · rw [hcmd]
    split_ifs <;> simp
  · intro h1 h2 h3
    have hp : ∀ m, m ∈ printed (copyEvents S fs RootCaFile "/etc/pki/ca-trust/source/anchors") →
        "Couldn't attempt Fedora install approach 3 because update-ca-trust, trust, and p11-kit were missing."
          ≠ m := by
      intro m hm
      rcases printed_copyEvents S fs _ _ m hm with rfl | rfl <;> decide
    refine ⟨by rw [hcmd]; simp [h1, h2, h3], ?_, ?_, ?_, writes_fedora S fs⟩
    · rw [InstallCertsOnFedora_run]
      simp only [e1, e2, e3, h1, h2, h3]
      simp only [Bool.false_eq_true, if_false, Outcome.world, List.nil_append, List.cons_append,
        printed_append, printed_println]
      have hz : List.count
          "Couldn't attempt Fedora install approach 3 because update-ca-trust, trust, and p11-kit were missing."
          (printed (copyEvents S fs RootCaFile "/etc/pki/ca-trust/source/anchors")) = 0 :=
        List.count_eq_zero.mpr fun hm => hp _ hm rfl
      rw [List.count_cons, List.count_append, hz]
      rfl
    · rw [InstallCertsOnFedora_run]
      simp only [e1, e2, e3, h1, h2, h3]
      simp only [Bool.false_eq_true, if_false, Outcome.world, List.nil_append, List.cons_append,
        printed_append, printed_println]
      exact List.getLast?_concat
        ("Installing certs for Fedora"
          :: printed (copyEvents S fs RootCaFile "/etc/pki/ca-trust/source/anchors"))
    · rw [InstallCertsOnFedora_run]
      simp only [e1, e2, e3, h1, h2, h3]
      exact ⟨_, rfl⟩

/-- Witness for C6: a Fedora image without any of the tools. -/
theorem fedora_tool_priority_witness :
    commands (InstallCertsOnFedora quietPlatform RootCaFile ⟨bareFedoraImage, []⟩).world.trace = []
    ∧ (printed (InstallCertsOnFedora quietPlatform RootCaFile ⟨bareFedoraImage, []⟩).world.trace).count
        "Couldn't attempt Fedora install approach 3 because update-ca-trust, trust, and p11-kit were missing."
        = 1 :=
  have h := (fedora_tool_priority quietPlatform bareFedoraImage).2.2.2
    (by decide) (by decide) (by decide)
  ⟨h.1, h.2.1⟩

/-- C7: when `/usr/sbin/update-ca-certificates` is absent (the copy that precedes
the check does not touch that path), the Debian procedure
without `/usr/bin/apt` prints its explanation, executes nothing and leaves through
`os.Exit(0)`; with `/usr/bin/apt` its commands are `apt update`,
`apt install -y ca-certificates`, `update-ca-certificates`, in that order, on every
platform, whatever the three commands return. -/
theorem debian_self_repair (S : Sys) (fs : FS)
    (h : fileExists fs "/usr/sbin/update-ca-certificates" = false) :
    (fileExists fs "/usr/bin/apt" = false →
        commands (InstallCertsOnDebian S RootCaFile ⟨fs, []⟩).world.trace = []
        ∧ (printed (InstallCertsOnDebian S RootCaFile ⟨fs, []⟩).world.trace).getLast?
            = some "update-ca-certificates missing, and can't install it because apt is missing. Not installing certs."
        ∧ (∃ w, InstallCertsOnDebian S RootCaFile ⟨fs, []⟩ = .exit 0 w)
        ∧ (InstallCertsOnDebian S RootCaFile ⟨fs, []⟩).exitCode = 0)
    ∧ (fileExists fs "/usr/bin/apt" = true →
        commands (InstallCertsOnDebian S RootCaFile ⟨fs, []⟩).world.trace
          = [["/usr/bin/apt", "update"], ["/usr/bin/apt", "install", "-y", "ca-certificates"],
             ["/usr/sbin/update-ca-certificates"]]
        ∧ ∀ S2 : Sys, commands (InstallCertsOnDebian S2 RootCaFile ⟨fs, []⟩).world.trace
          = commands (InstallCertsOnDebian S RootCaFile ⟨fs, []⟩).world.trace) := by
  have key : ∀ T : Sys, fileExists fs "/usr/bin/apt" = true →
      commands (InstallCertsOnDebian T RootCaFile ⟨fs, []⟩).world.trace
        = [["/usr/bin/apt", "update"], ["/usr/bin/apt", "install", "-y", "ca-certificates"],
           ["/usr/sbin/update-ca-certificates"]] := by
    intro T ha
    have e1 := fileExists_copyFS T fs RootCaFile ("/usr/local/share/ca-certificates/" ++ RootCaFile)
      "/usr/sbin/update-ca-certificates" (by decide)
    have e2 := fileExists_copyFS T fs RootCaFile ("/usr/local/share/ca-certificates/" ++ RootCaFile)
      "/usr/bin/apt" (by decide)
    rw [InstallCertsOnDebian_run]
    simp only [e1, e2, h, ha]
    simp [Outcome.world, commands_append, commands_println, commands_copyEvents,
      commands_execEvents]
  have e1 := fileExists_copyFS S fs RootCaFile ("/usr/local/share/ca-certificates/" ++ RootCaFile)
    "/usr/sbin/update-ca-certificates" (by decide)
  have e2 := fileExists_copyFS S fs RootCaFile ("/usr/local/share/ca-certificates/" ++ RootCaFile)
    "/usr/bin/apt" (by decide)
  constructor
  · intro ha
    rw [InstallCertsOnDebian_run]
    simp only [e1, e2, h, ha]
    refine ⟨?_, ?_, ⟨_, rfl⟩, rfl⟩
    · simp [Outcome.world, commands_append, commands_println, commands_copyEvents]
      rfl
    · simp only [Bool.false_eq_true, if_false, Outcome.world, List.nil_append, List.cons_append,
        printed_append, printed_println]
      exact List.getLast?_concat
        ("Installing certs for Debian" :: printed (copyEvents S fs RootCaFile
          ("/usr/local/share/ca-certificates/" ++ RootCaFile)))
  · intro ha
    refine ⟨key S ha, ?_⟩
    intro S2
    rw [key S ha, key S2 ha]

/-- Witness for C7: an image with `apt` only, on a platform where no tool starts. -/
theorem debian_self_repair_witness :
    commands (InstallCertsOnDebian hostilePlatform RootCaFile ⟨aptOnlyImage, []⟩).world.trace
      = [["/usr/bin/apt", "update"], ["/usr/bin/apt", "install", "-y", "ca-certificates"],
         ["/usr/sbin/update-ca-certificates"]]
    ∧ commands (InstallCertsOnDebian quietPlatform RootCaFile ⟨emptyImage, []⟩).world.trace = [] :=
  ⟨((debian_self_repair hostilePlatform aptOnlyImage (by decide)).2 (by decide)).1,
   ((debian_self_repair quietPlatform emptyImage (by decide)).1 (by decide)).1⟩

/-- C8, as stated, fails: the bundle is a writable file holding "OLD" and
`/cacert.pem` is readable and holds "CERT", yet on a device that accepts three runes
the bundle ends as "OLDCER", not "OLDCERT"; the program prints
"Error appending to file:" and goes on. -/
theorem alpine_appends_counterexample :
    alpineImage.node "/etc/ssl/certs/ca-certificates.crt" = .file "OLD" true true
    ∧ alpineImage.node "/cacert.pem" = .file "CERT" true true
    ∧ (InstallCertsForDistro hostilePlatform .Alpine ⟨alpineImage, []⟩).world.fs.node
        "/etc/ssl/certs/ca-certificates.crt" = .file "OLDCER" true true
    ∧ (InstallCertsForDistro hostilePlatform .Alpine ⟨alpineImage, []⟩).world.fs.node
        "/etc/ssl/certs/ca-certificates.crt" ≠ .file ("OLD" ++ "CERT") true true
    ∧ printed (InstallCertsForDistro hostilePlatform .Alpine ⟨alpineImage, []⟩).world.trace
        = ["Installing certs for Alpine", "Error appending to file:"] := by
  decide

/-- C8, amended: dispatching Alpine on a file system where the bundle
`/etc/ssl/certs/ca-certificates.crt` is a writable file with contents `B` and
`/cacert.pem` is readable with contents `C` leaves the bundle with `B` followed by
what the write stored of `C`: all of `C` when the write is accepted, otherwise a
prefix of `C`, and then "Error appending to file:" is printed.  Every other location
is as it was, no command is executed and the dispatcher returns.  When the bundle
cannot be opened for appending, the file system is unchanged, the line
"Error opening file:" is printed and the dispatcher returns normally. -/
theorem alpine_appends (S : Sys) (fs : FS) :
    (∀ B C r w, fs.node "/etc/ssl/certs/ca-certificates.crt" = .file B r true →
        fs.node "/cacert.pem" = .file C true w →
        (InstallCertsForDistro S .Alpine ⟨fs, []⟩).world.fs.node
            "/etc/ssl/certs/ca-certificates.crt"
          = .file (B ++ (deviceWrite S "/etc/ssl/certs/ca-certificates.crt" C).1) r true
        ∧ (deviceWrite S "/etc/ssl/certs/ca-certificates.crt" C).1.data <+: C.data
        ∧ ((deviceWrite S "/etc/ssl/certs/ca-certificates.crt" C).2 = false →
            (InstallCertsForDistro S .Alpine ⟨fs, []⟩).world.fs.node
                "/etc/ssl/certs/ca-certificates.crt" = .file (B ++ C) r true
            ∧ printed (InstallCertsForDistro S .Alpine ⟨fs, []⟩).world.trace
                = ["Installing certs for Alpine"])
        ∧ ((deviceWrite S "/etc/ssl/certs/ca-certificates.crt" C).2 = true →
            printed (InstallCertsForDistro S .Alpine ⟨fs, []⟩).world.trace
              = ["Installing certs for Alpine", "Error appending to file:"])
        ∧ (∀ l, l ≠ resolve "/etc/ssl/certs/ca-certificates.crt" →
            (InstallCertsForDistro S .Alpine ⟨fs, []⟩).world.fs l = fs l)
        ∧ commands (InstallCertsForDistro S .Alpine ⟨fs, []⟩).world.trace = []
        ∧ (∃ w1, InstallCertsForDistro S .Alpine ⟨fs, []⟩ = .ret () w1)
        ∧ (InstallCertsForDistro S .Alpine ⟨fs, []⟩).exitCode = 0)
    ∧ ((∀ B r, fs.node "/etc/ssl/certs/ca-certificates.crt" ≠ .file B r true) →
        InstallCertsForDistro S .Alpine ⟨fs, []⟩
          = .ret () ⟨fs, [.println "Installing certs for Alpine",
              .append "/etc/ssl/certs/ca-certificates.crt", .println "Error opening file:"]⟩) := by
  constructor
  · intro B C r w hb hc
    have hr : readFile fs RootCaFile = C := by
      simp [readFile, osReadFile, RootCaFile, hc]
    have hnode : (InstallCertsForDistro S .Alpine ⟨fs, []⟩).world.fs.node
        "/etc/ssl/certs/ca-certificates.crt"
        = .file (B ++ (deviceWrite S "/etc/ssl/certs/ca-certificates.crt" C).1) r true := by
      have hb2 : fs (resolve "/etc/ssl/certs/ca-certificates.crt") = .file B r true := hb
      rw [InstallCertsForDistro_run]
      simp [Outcome.world, hr, appendFS, hb2, FS.set, FS.node]
    refine ⟨hnode, deviceWrite_prefix S _ C, ?_, ?_, ?_, ?_, ?_, ?_⟩
    · intro hw
      refine ⟨?_, ?_⟩
      · rw [hnode, deviceWrite_complete S _ C hw]
      · rw [InstallCertsForDistro_run]
        simp [Outcome.world, hr, appendEvents, hb, hw, printed]
    · intro hw
      rw [InstallCertsForDistro_run]
      simp [Outcome.world, hr, appendEvents, hb, hw, printed]
    · intro l hl
      rw [InstallCertsForDistro_run]
      exact appendFS_frame S fs _ _ l hl
    · rw [InstallCertsForDistro_run]
      simp [Outcome.world, commands_println, commands_appendEvents]
    · rw [InstallCertsForDistro_run]
      exact ⟨_, rfl⟩
    · rw [InstallCertsForDistro_run]
      rfl
  · intro hno
    rw [InstallCertsForDistro_run]
    simp only
    rcases hb : fs.node "/etc/ssl/certs/ca-certificates.crt" with _ | _ | ⟨old, r, _ | _⟩
    · simp [appendFS, appendEvents, hb]
    · simp [appendFS, appendEvents, hb]
    · simp [appendFS, appendEvents, hb]
    · exact absurd hb (hno old r)

/-- Witness for C8: the Alpine image, and an image without a bundle. -/
theorem alpine_appends_witness :
    (InstallCertsForDistro quietPlatform .Alpine ⟨alpineImage, []⟩).world.fs.node
        "/etc/ssl/certs/ca-certificates.crt" = .file ("OLD" ++ "CERT") true true
    ∧ InstallCertsForDistro quietPlatform .Alpine ⟨emptyImage, []⟩
        = .ret () ⟨emptyImage, [.println "Installing certs for Alpine",
            .append "/etc/ssl/certs/ca-certificates.crt", .println "Error opening file:"]⟩ :=
  ⟨(((alpine_appends quietPlatform alpineImage).1 "OLD" "CERT" true true
      (by decide) (by decide)).2.2.1 (by decide)).1,
   (alpine_appends quietPlatform emptyImage).2 (fun B r => by simp [emptyImage, FS.node])⟩

/-- C9, on the release file "ID=arch\n": the detector returns Unknown, the
dispatcher does nothing, and the run ends with exit status 0 without having printed
a single line. -/
theorem unknown_distro_is_silent (S : Sys) :
    selected archImage = some "/etc/os-release"
    ∧ IdentifyDistro S archImage "/etc/os-release" = .Unknown
    ∧ runMain S archImage = .ret () ⟨archImage, []⟩
    ∧ printed (runMain S archImage).world.trace = []
    ∧ (runMain S archImage).exitCode = 0 := by
  have hsel : selected archImage = some "/etc/os-release" := by decide
  have hu : IdentifyDistro S archImage "/etc/os-release" = .Unknown := rfl
  have hrun := runMain_of_unknown S archImage _ hsel hu
  refine ⟨hsel, hu, hrun, ?_, ?_⟩
  · rw [hrun]; rfl
  · rw [hrun]; rfl

end InstallRootCaCerts
